import Mathlib

/-!
Verification development for the state projection engine of
`src/serverExplorer.ts` (repository robstryker/vscode-adapters).

The repository contains two near-duplicate variants of the class
`ServersViewTreeDataProvider`:

* the handle-tracking variant (namespace `HandleVariant` below), which keeps
  a `servers : Map<string, ServerHandle>` registry next to the
  `serverStatus : Map<string, ServerState>` map, and
* the state-only variant (namespace `StateVariant` below), which keeps only
  `serverStatus` and derives the tree roots from it.

JavaScript `Map` objects are modelled by insertion-ordered association lists
(`JsMap` below).  An `OutputChannel` is modelled by its buffered text content;
presence of a key in the channel map models a live (not disposed) channel.
A thrown JavaScript exception (for example a `TypeError` from dereferencing
`undefined`) is modelled by an `Option`-valued operation returning `none`.
Change notifications (`this._onDidChangeTreeData.fire(data)`) are modelled by
returning the list of fired payloads, where `none` is a fire with no argument
(whole-tree invalidation) and `some x` is a fire scoped to entity `x`.
-/

/-- Insertion-ordered association list modelling a JavaScript `Map`. -/
structure JsMap (κ α : Type) : Type where
  entries : List (κ × α)
  deriving DecidableEq

namespace JsMap

variable {κ α : Type} [DecidableEq κ]

/-- Model of `new Map()`. -/
def empty : JsMap κ α := ⟨[]⟩

/-- List-level lookup: first (and, for maps built by the operations below,
only) entry with the given key. -/
def getList : List (κ × α) → κ → Option α
  | [], _ => none
  | p :: t, k => if p.1 = k then some p.2 else getList t k

/-- Model of `Map.prototype.get`. -/
def get (m : JsMap κ α) (k : κ) : Option α := getList m.entries k

/-- List-level insertion: replace the entry in place when the key is present,
otherwise append at the end (JavaScript insertion order). -/
def setList : List (κ × α) → κ → α → List (κ × α)
  | [], k, v => [(k, v)]
  | p :: t, k, v => if p.1 = k then (k, v) :: t else p :: setList t k v

/-- Model of `Map.prototype.set`. -/
def set (m : JsMap κ α) (k : κ) (v : α) : JsMap κ α := ⟨setList m.entries k v⟩

/-- List-level deletion. -/
def deleteList : List (κ × α) → κ → List (κ × α)
  | [], _ => []
  | p :: t, k => if p.1 = k then deleteList t k else p :: deleteList t k

/-- Model of `Map.prototype.delete` (the returned boolean is not modelled). -/
def delete (m : JsMap κ α) (k : κ) : JsMap κ α := ⟨deleteList m.entries k⟩

/-- Model of `Array.from(map.values())`, in insertion order. -/
def values (m : JsMap κ α) : List α := m.entries.map Prod.snd

theorem getList_setList (l : List (κ × α)) (k k' : κ) (v : α) :
    getList (setList l k v) k' = if k' = k then some v else getList l k' := by
  induction l with
  | nil =>
    by_cases h : k' = k
    · simp [setList, getList, h]
    · have hkk' : ¬ k = k' := by
        intro hc; exact h hc.symm
      simp [setList, getList, h, hkk']
  | cons p t ih =>
    by_cases hp : p.1 = k
    · by_cases h : k' = k
      · simp [setList, getList, hp, h]
      · have hkk' : ¬ k = k' := by
          intro hc; exact h hc.symm
        have hpk' : ¬ p.1 = k' := by
          intro hc; exact h (hc.symm.trans hp)
        simp [setList, getList, hp, h, hkk', hpk']
    · by_cases hpk' : p.1 = k'
      · have h : ¬ k' = k := by
          intro hc; exact hp (hpk'.trans hc)
        simp [setList, getList, hp, hpk', h]
      · simp [setList, getList, hp, hpk', ih]

theorem get_set (m : JsMap κ α) (k k' : κ) (v : α) :
    (m.set k v).get k' = if k' = k then some v else m.get k' :=
  getList_setList m.entries k k' v

@[simp]
theorem get_set_self (m : JsMap κ α) (k : κ) (v : α) :
    (m.set k v).get k = some v := by
  simp [get_set]

theorem get_set_ne (m : JsMap κ α) (k k' : κ) (v : α) (h : k' ≠ k) :
    (m.set k v).get k' = m.get k' := by
  simp [get_set, h]

theorem getList_deleteList (l : List (κ × α)) (k k' : κ) :
    getList (deleteList l k) k' = if k' = k then none else getList l k' := by
  induction l with
  | nil =>
    by_cases h : k' = k <;> simp [deleteList, getList, h]
  | cons p t ih =>
    by_cases hp : p.1 = k
    · by_cases h : k' = k
      · subst h
        simp [deleteList, hp, ih]
      · have hpk' : ¬ p.1 = k' := by
          intro hc; exact h (hc.symm.trans hp)
        have hkk' : ¬ k = k' := by
          intro hc; exact h hc.symm
        simp [deleteList, getList, hp, hpk', ih, h, hkk']
    · by_cases hpk' : p.1 = k'
      · have h : ¬ k' = k := by
          intro hc; exact hp (hpk'.trans hc)
        simp [deleteList, getList, hp, hpk', h]
      · simp [deleteList, getList, hp, hpk', ih]

theorem get_delete (m : JsMap κ α) (k k' : κ) :
    (m.delete k).get k' = if k' = k then none else m.get k' :=
  getList_deleteList m.entries k k'

@[simp]
theorem get_delete_self (m : JsMap κ α) (k : κ) :
    (m.delete k).get k = none := by
  simp [get_delete]

theorem mem_of_getList_eq_some {l : List (κ × α)} {k : κ} {v : α}
    (h : getList l k = some v) : (k, v) ∈ l := by
  induction l with
  | nil => simp [getList] at h
  | cons p t ih =>
    by_cases hp : p.1 = k
    · simp only [getList, if_pos hp] at h
      have hv : p.2 = v := Option.some.inj h
      have hpkv : p = (k, v) := by
        rw [← hp, ← hv]
      exact List.mem_cons.mpr (Or.inl hpkv.symm)
    · simp only [getList, if_neg hp] at h
      exact List.mem_cons_of_mem _ (ih h)

/-- A successful lookup comes from an entry of the underlying list. -/
theorem mem_of_get_eq_some {m : JsMap κ α} {k : κ} {v : α}
    (h : m.get k = some v) : (k, v) ∈ m.entries :=
  mem_of_getList_eq_some h

end JsMap

namespace Protocol

/-- Model of `Protocol.ServerType` from rsp-client. -/
structure ServerType where
  id : String
  visibleName : String
  deriving DecidableEq

/-- Model of `Protocol.ServerHandle` from rsp-client. -/
structure ServerHandle where
  id : String
  type : ServerType
  deriving DecidableEq

/-- Model of `Protocol.DeployableReference` from rsp-client. -/
structure DeployableReference where
  label : String
  path : String
  deriving DecidableEq

/-- Model of `Protocol.DeployableState` from rsp-client: the deployable run
state code `state` and the publish state code `publishState`. -/
structure DeployableState where
  reference : DeployableReference
  state : Nat
  publishState : Nat
  deriving DecidableEq

/-- Model of `Protocol.ServerState` from rsp-client. -/
structure ServerState where
  server : ServerHandle
  state : Nat
  deployableStates : List DeployableState
  deriving DecidableEq

/-- Model of `Protocol.ServerProcessOutput` from rsp-client. -/
structure ServerProcessOutput where
  server : ServerHandle
  text : String
  deriving DecidableEq

/-- Model of `Protocol.ServerBean` from rsp-client.  Only the fields the
source reads are carried. -/
structure ServerBean where
  location : String
  typeCategory : String
  deriving DecidableEq

/-- Model of `Protocol.Status` from rsp-client. -/
structure Status where
  severity : Int
  message : String
  deriving DecidableEq

end Protocol

/-- Model of the rsp-client constant `ServerState.STARTING`.  The value 1 is
corroborated by the constructor of both variants, which maps code 1 to the
label `Starting` in `runStateEnum`. -/
def ServerState.STARTING : Nat := 1

/-- Contents of `this.runStateEnum` as populated in both constructors. -/
def runStateEnum : JsMap Nat String :=
  (((((JsMap.empty.set 0 "Unknown").set 1 "Starting").set
    2 "Started").set 3 "Stopping").set 4 "Stopped")

/-- Contents of `this.publishStateEnum` as populated in both constructors. -/
def publishStateEnum : JsMap Nat String :=
  ((((((JsMap.empty.set 1 "None").set 2 "Incremental").set
    3 "Full").set 4 "Add").set 5 "Remove").set 6 "Unknown")

/-- Rendered tree item: the label passed to the `TreeItem` constructor and
the assigned `contextValue`.  The icon path is UI glue and not modelled. -/
structure TreeItem where
  label : String
  contextValue : Option String
  deriving DecidableEq

/-- JavaScript template-string interpolation of a possibly undefined value:
interpolating `undefined` produces the text "undefined". -/
def jsTemplate : Option String → String
  | some s => s
  | none => "undefined"

namespace StateVariant

/-- Engine state of the state-only variant of `ServersViewTreeDataProvider`:
the `serverStatus` map and the output channel table (each channel modelled by
its buffered content). -/
structure Provider where
  serverStatus : JsMap String Protocol.ServerState
  serverOutputChannels : JsMap String String
  deriving DecidableEq

/-- A change-notification payload: `none` models `fire(undefined)` (whole
tree), `some s` models `fire(s)`. -/
abbrev Notification : Type := Option Protocol.ServerState

/-- Embedding of `insertServer(handle)` of the state-only variant: the body
is a bare `this.refresh()`, so the state is untouched and one unscoped
notification fires. -/
def insertServer (p : Provider) (_handle : Protocol.ServerHandle) :
    Provider × List Notification :=
  (p, [none])

/-- Embedding of `updateServer(event)` of the state-only variant: store the
event under `event.server.id`, fire a notification scoped to the event, then
clear the output channel if the event reports `STARTING` and a channel
exists. -/
def updateServer (p : Provider) (event : Protocol.ServerState) :
    Provider × List Notification :=
  let p1 : Provider :=
    { p with serverStatus := p.serverStatus.set event.server.id event }
  let channel : Option String :=
    p1.serverOutputChannels.get event.server.id
  let p2 : Provider :=
    if event.state = ServerState.STARTING ∧ channel.isSome then
      { p1 with serverOutputChannels :=
          p1.serverOutputChannels.set event.server.id "" }
    else p1
  (p2, [some event])

/-- Embedding of `removeServer(handle)` of the state-only variant: delete the
status entry, fire an unscoped notification, then clear and dispose the
output channel (disposal is modelled by removing the map entry; a cleared
then disposed channel is simply gone). -/
def removeServer (p : Provider) (handle : Protocol.ServerHandle) :
    Provider × List Notification :=
  let p1 : Provider :=
    { p with serverStatus := p.serverStatus.delete handle.id }
  let p2 : Provider :=
    { p1 with serverOutputChannels :=
        p1.serverOutputChannels.delete handle.id }
  (p2, [none])

/-- Embedding of `addServerOutput(output)`: lazily create the channel (empty
content) when absent, then append `output.text`.  The `channel.show()` call
guarded by configuration is UI glue and not modelled. -/
def addServerOutput (p : Provider) (output : Protocol.ServerProcessOutput) :
    Provider :=
  let channels1 : JsMap String String :=
    match p.serverOutputChannels.get output.server.id with
    | none => p.serverOutputChannels.set output.server.id ""
    | some _ => p.serverOutputChannels
  let content : String := (channels1.get output.server.id).getD ""
  { p with serverOutputChannels :=
      channels1.set output.server.id (content ++ output.text) }

/-- Tree nodes of the state-only variant: the union type
`Protocol.ServerState | Protocol.DeployableState`. -/
inductive Node : Type where
  | serverState (s : Protocol.ServerState)
  | deployable (d : Protocol.DeployableState)
  deriving DecidableEq

/-- Embedding of `getTreeItem(item)` of the state-only variant.  The first
branch tests `item.deployableStates` (always a truthy array on a
`ServerState`), the second tests `item.reference` (a truthy object on a
`DeployableState`).  `status == null ? 0 : status.state` defaults the run
state code to 0, and interpolating `runStateEnum.get(...)` follows
JavaScript template semantics (`jsTemplate`). -/
def getTreeItem (p : Provider) (item : Node) : Option TreeItem :=
  match item with
  | .serverState s =>
    let id1 : String := s.server.id
    let status : Option Protocol.ServerState := p.serverStatus.get id1
    let runState : Nat :=
      match status with
      | none => 0
      | some st => st.state
    some { label := id1 ++ ":" ++ s.server.type.visibleName ++ "(" ++
             jsTemplate (runStateEnum.get runState) ++ ")",
           contextValue := runStateEnum.get runState }
  | .deployable d =>
    some { label := "I am a deployment: " ++ toString d.state,
           contextValue := runStateEnum.get d.state }

/-- Embedding of `getChildren(element)` of the state-only variant: roots are
`Array.from(this.serverStatus.values())`; a server-level node returns its
`deployableStates` (a truthy array even when empty); a deployable-level node
matches no branch and the function returns `undefined`, modelled as
`none`. -/
def getChildren (p : Provider) (element : Option Node) : Option (List Node) :=
  match element with
  | none => some (p.serverStatus.values.map Node.serverState)
  | some (.serverState s) => some (s.deployableStates.map Node.deployable)
  | some (.deployable _) => none

end StateVariant

namespace HandleVariant

/-- Engine state of the handle-tracking variant: the `servers` handle
registry, the `serverStatus` map, and the output channel table. -/
structure Provider where
  servers : JsMap String Protocol.ServerHandle
  serverStatus : JsMap String Protocol.ServerState
  serverOutputChannels : JsMap String String
  deriving DecidableEq

/-- A change-notification payload of the handle-tracking variant. -/
abbrev Notification : Type := Option Protocol.ServerHandle

/-- Embedding of `insertServer(handle)` of the handle-tracking variant:
register the handle under its identifier and fire an unscoped
notification. -/
def insertServer (p : Provider) (handle : Protocol.ServerHandle) :
    Provider × List Notification :=
  ({ p with servers := p.servers.set handle.id handle }, [none])

/-- Embedding of `updateServer(event)` of the handle-tracking variant.  The
source reads `value = this.servers.get(event.server.id)` and then
dereferences `value.id`; when the identifier is not registered, `value` is
`undefined` and the dereference throws a TypeError before any mutation.  The
thrown exception is modelled by returning `none`. -/
def updateServer (p : Provider) (event : Protocol.ServerState) :
    Option (Provider × List Notification) :=
  match p.servers.get event.server.id with
  | none => none
  | some value =>
    let p1 : Provider :=
      { p with serverStatus := p.serverStatus.set value.id event }
    let channel : Option String :=
      p1.serverOutputChannels.get value.id
    let p2 : Provider :=
      if event.state = ServerState.STARTING ∧ channel.isSome then
        { p1 with serverOutputChannels :=
            p1.serverOutputChannels.set value.id "" }
      else p1
    some (p2, [some value])

/-- Embedding of `removeServer(handle)` of the handle-tracking variant. -/
def removeServer (p : Provider) (handle : Protocol.ServerHandle) :
    Provider × List Notification :=
  let p1 : Provider :=
    { p with servers := p.servers.delete handle.id,
             serverStatus := p.serverStatus.delete handle.id }
  let p2 : Provider :=
    { p1 with serverOutputChannels :=
        p1.serverOutputChannels.delete handle.id }
  (p2, [none])

/-- Embedding of `addServerOutput(output)` (textually identical in both
variants). -/
def addServerOutput (p : Provider) (output : Protocol.ServerProcessOutput) :
    Provider :=
  let channels1 : JsMap String String :=
    match p.serverOutputChannels.get output.server.id with
    | none => p.serverOutputChannels.set output.server.id ""
    | some _ => p.serverOutputChannels
  let content : String := (channels1.get output.server.id).getD ""
  { p with serverOutputChannels :=
      channels1.set output.server.id (content ++ output.text) }

/-- Tree nodes of the handle-tracking variant: the union type
`Protocol.ServerHandle | Protocol.ServerState | Protocol.DeployableState`. -/
inductive Node : Type where
  | handle (h : Protocol.ServerHandle)
  | serverState (s : Protocol.ServerState)
  | deployable (d : Protocol.DeployableState)
  deriving DecidableEq

/-- Embedding of `getTreeItem(item)` of the handle-tracking variant.  A
`ServerState` has a truthy `deployableStates` array and hits the empty TODO
branch, so the function returns `undefined` (`none`).  A `ServerHandle` hits
the `item.id` test, which is JavaScript-falsy exactly when the identifier is
the empty string.  A `DeployableState` has neither field and also falls
through to `undefined`. -/
def getTreeItem (p : Provider) (item : Node) : Option TreeItem :=
  match item with
  | .serverState _ => none
  | .handle h =>
    if h.id ≠ "" then
      let status : Option Protocol.ServerState := p.serverStatus.get h.id
      let runState : Nat :=
        match status with
        | none => 0
        | some st => st.state
      some { label := h.id ++ ":" ++ h.type.visibleName ++ "(" ++
               jsTemplate (runStateEnum.get runState) ++ ")",
             contextValue := runStateEnum.get runState }
    else none
  | .deployable _ => none

/-- Embedding of `getChildren(element)` of the handle-tracking variant: the
roots are `Array.from(this.servers.values())`; any defined element matches
no branch, so the function returns `undefined` (`none`). -/
def getChildren (p : Provider) (element : Option Node) : Option (List Node) :=
  match element with
  | none => some (p.servers.values.map Node.handle)
  | some _ => none

end HandleVariant

/-- Embedding of the `addLocation()` pipeline (textually identical in both
variants up to which map backs the duplicate-name validation, which this
model does not need: the pipeline never reads the validator result).  The
external collaborators are passed as arguments:

* `folders` is the resolution of `window.showOpenDialog` (`none` models the
  user cancelling, in which case the dialog yields `undefined`);
* `findServerBeans` is the control-service discovery call;
* `inputBox` is the resolution of `window.showInputBox` (`none` models
  cancellation, which yields `undefined`);
* `createServer` is the control-service creation call.

The result models the promise returned by the final `then`: `Except.error`
is a rejection, `Except.ok none` a resolution with `undefined`, and
`Except.ok (some status)` a resolution with a status.  JavaScript
truthiness is modelled exactly: an empty beans array is truthy, an absent or
empty `typeCategory` is falsy, and an `undefined` or empty name is falsy. -/
def addLocation (folders : Option (List String))
    (findServerBeans : String → List Protocol.ServerBean)
    (inputBox : Option String)
    (createServer : Protocol.ServerBean → String → Protocol.Status) :
    Except String (Option Protocol.Status) :=
  let serverBeans : Option (List Protocol.ServerBean) :=
    match folders with
    | some fs => if fs.length = 1 then some (findServerBeans (fs.headD "")) else none
    | none => none
  let stage2 : Except String (Option (Option String × Protocol.ServerBean)) :=
    match serverBeans with
    | none => Except.ok none
    | some [] => Except.error "Cannot detect server in selected location!"
    | some (b :: _) =>
      if b.typeCategory ≠ "" ∧ b.typeCategory ≠ "UNKNOWN" then
        Except.ok (some (inputBox, b))
      else Except.error "Cannot detect server in selected location!"
  match stage2 with
  | Except.error e => Except.error e
  | Except.ok none => Except.ok none
  | Except.ok (some (name, bean)) =>
    match name with
    | none => Except.ok none
    | some n =>
      if n ≠ "" then
        let status : Protocol.Status := createServer bean n
        if status.severity > 0 then Except.error status.message
        else Except.ok (some status)
      else Except.ok none

/-- Last event of `events` whose server identifier is `id` (last write). -/
def lastEventFor (id : String) (events : List Protocol.ServerState) :
    Option Protocol.ServerState :=
  events.foldl (fun acc ev => if ev.server.id = id then some ev else acc) none

namespace StateVariant

/-- Fold a sequence of `updateServer` events over a provider, discarding the
notifications. -/
def applyUpdates (p : Provider) (events : List Protocol.ServerState) :
    Provider :=
  events.foldl (fun q e => (updateServer q e).1) p

end StateVariant

namespace HandleVariant

/-- Fold a sequence of `updateServer` events over a provider of the
handle-tracking variant; the whole run aborts (`none`) as soon as one event
throws. -/
def applyUpdates : Provider → List Protocol.ServerState → Option Provider
  | p, [] => some p
  | p, e :: rest =>
    match updateServer p e with
    | none => none
    | some (p', _) => applyUpdates p' rest

end HandleVariant

/-- Sample server type used by concrete witnesses. -/
def tomcatType : Protocol.ServerType := ⟨"tc", "Tomcat"⟩

/-- Sample handle with identifier s1. -/
def s1Handle : Protocol.ServerHandle := ⟨"s1", tomcatType⟩

/-- Sample state reporting s1 as Started (code 2) with no deployables. -/
def s1Started : Protocol.ServerState := ⟨s1Handle, 2, []⟩

/-- Sample state reporting s1 as Starting (code 1). -/
def s1Starting : Protocol.ServerState := ⟨s1Handle, 1, []⟩

/-- Empty provider of the state-only variant. -/
def emptyStateProvider : StateVariant.Provider := ⟨JsMap.empty, JsMap.empty⟩

/-- Empty provider of the handle-tracking variant. -/
def emptyHandleProvider : HandleVariant.Provider :=
  ⟨JsMap.empty, JsMap.empty, JsMap.empty⟩

/-- Handle-tracking provider with s1 registered and no state or channel. -/
def s1HandleProvider : HandleVariant.Provider :=
  ⟨JsMap.empty.set "s1" s1Handle, JsMap.empty, JsMap.empty⟩

namespace StateVariant

/-- Shared helper: `updateServer` replaces the status entry for the event
identifier. -/
theorem updateServer_serverStatus (p : Provider) (e : Protocol.ServerState) :
    ((updateServer p e).1).serverStatus =
      p.serverStatus.set e.server.id e := by
  unfold updateServer
  dsimp only
  by_cases hc : e.state = ServerState.STARTING ∧
      (((p.serverOutputChannels.get e.server.id).isSome) = true)
  · rw [if_pos hc]
  · rw [if_neg hc]

/-- Shared helper: the channel table after `updateServer` is cleared at the
event identifier exactly when the event reports `STARTING` and a channel
exists. -/
theorem updateServer_channels (p : Provider) (e : Protocol.ServerState) :
    ((updateServer p e).1).serverOutputChannels =
      if e.state = ServerState.STARTING ∧
          ((p.serverOutputChannels.get e.server.id).isSome = true) then
        p.serverOutputChannels.set e.server.id ""
      else p.serverOutputChannels := by
  unfold updateServer
  dsimp only
  by_cases hc : e.state = ServerState.STARTING ∧
      (((p.serverOutputChannels.get e.server.id).isSome) = true)
  · rw [if_pos hc, if_pos hc]
  · rw [if_neg hc, if_neg hc]

/-- Shared helper: `addServerOutput` appends to the current content, the
empty string standing in for a freshly created channel. -/
theorem addServerOutput_content (p : Provider)
    (o : Protocol.ServerProcessOutput) :
    (addServerOutput p o).serverOutputChannels.get o.server.id =
      some (((p.serverOutputChannels.get o.server.id).getD "") ++ o.text) := by
  unfold addServerOutput
  cases hc : p.serverOutputChannels.get o.server.id with
  | none => simp [hc]
  | some c => simp [hc]

/-- Shared helper: `addServerOutput` does not touch `serverStatus`. -/
theorem addServerOutput_serverStatus (p : Provider)
    (o : Protocol.ServerProcessOutput) :
    (addServerOutput p o).serverStatus = p.serverStatus := rfl

end StateVariant

namespace HandleVariant

/-- Shared helper: when the event identifier is registered, `updateServer`
succeeds, fires one notification scoped to the registered handle, leaves the
registry unchanged and stores the event under the registered handle
identifier. -/
theorem updateServer_spec (p : Provider) (e : Protocol.ServerState)
    (value : Protocol.ServerHandle)
    (hval : p.servers.get e.server.id = some value) :
    ∃ q, updateServer p e = some (q, [some value]) ∧
      q.servers = p.servers ∧
      q.serverStatus = p.serverStatus.set value.id e ∧
      q.serverOutputChannels =
        (if e.state = ServerState.STARTING ∧
            ((p.serverOutputChannels.get value.id).isSome = true) then
          p.serverOutputChannels.set value.id ""
        else p.serverOutputChannels) := by
  unfold updateServer
  rw [hval]
  dsimp only
  by_cases hc : e.state = ServerState.STARTING ∧
      (((p.serverOutputChannels.get value.id).isSome) = true)
  · rw [if_pos hc, if_pos hc]
    exact ⟨_, rfl, rfl, rfl, rfl⟩
  · rw [if_neg hc, if_neg hc]
    exact ⟨_, rfl, rfl, rfl, rfl⟩

/-- Shared helper: `addServerOutput` appends to the current content (same
code as in the state-only variant). -/
theorem addServerOutput_content_handle (p : Provider)
    (o : Protocol.ServerProcessOutput) :
    (addServerOutput p o).serverOutputChannels.get o.server.id =
      some (((p.serverOutputChannels.get o.server.id).getD "") ++ o.text) := by
  unfold addServerOutput
  cases hc : p.serverOutputChannels.get o.server.id with
  | none => simp [hc]
  | some c => simp [hc]

/-- Shared helper: `addServerOutput` does not touch the handle registry. -/
theorem addServerOutput_servers (p : Provider)
    (o : Protocol.ServerProcessOutput) :
    (addServerOutput p o).servers = p.servers := rfl

end HandleVariant

/-- Shared helper: folding the last-write accumulator from an arbitrary
start value factors through `lastEventFor`. -/
theorem lastEventFor_or (id : String) (events : List Protocol.ServerState)
    (x : Option Protocol.ServerState) :
    events.foldl (fun acc ev => if ev.server.id = id then some ev else acc) x =
      (lastEventFor id events).or x := by
  induction events generalizing x with
  | nil => rfl
  | cons e rest ih =>
    have hcons : lastEventFor id (e :: rest) =
        rest.foldl (fun acc ev => if ev.server.id = id then some ev else acc)
          (if e.server.id = id then some e else none) := rfl
    rw [List.foldl_cons, ih, hcons,
        ih (if e.server.id = id then some e else none)]
    cases hle : lastEventFor id rest with
    | some ev => rfl
    | none =>
      by_cases h : e.server.id = id
      · simp [h, Option.or]
      · simp [h, Option.or]

/-- Shared helper: the state-only registry entry after a fold of updates is
the last-write fold started at the current entry. -/
theorem stateVariant_applyUpdates_get (events : List Protocol.ServerState)
    (p : StateVariant.Provider) (id : String) :
    (StateVariant.applyUpdates p events).serverStatus.get id =
      events.foldl (fun acc ev => if ev.server.id = id then some ev else acc)
        (p.serverStatus.get id) := by
  induction events generalizing p with
  | nil => rfl
  | cons e rest ih =>
    show (StateVariant.applyUpdates (StateVariant.updateServer p e).1
        rest).serverStatus.get id = _
    rw [List.foldl_cons, ih]
    congr 1
    rw [StateVariant.updateServer_serverStatus, JsMap.get_set]
    by_cases h : e.server.id = id
    · simp [h]
    · have h2 : ¬ id = e.server.id := by
        intro hc; exact h hc.symm
      simp [h, h2]

/-- Shared helper: under a well-formed registry (every entry maps an
identifier to a handle carrying that identifier) in which every event
identifier is registered, the handle-tracking fold of updates never throws,
leaves the registry unchanged, and its registry entries follow the
last-write fold. -/
theorem handleVariant_applyUpdates_spec (events : List Protocol.ServerState)
    (p : HandleVariant.Provider)
    (hwf : ∀ q ∈ p.servers.entries, (q.2).id = q.1)
    (hreg : ∀ ev ∈ events, (p.servers.get ev.server.id).isSome = true) :
    ∃ p', HandleVariant.applyUpdates p events = some p' ∧
      p'.servers = p.servers ∧
      ∀ id, p'.serverStatus.get id =
        events.foldl (fun acc ev => if ev.server.id = id then some ev else acc)
          (p.serverStatus.get id) := by
  induction events generalizing p with
  | nil => exact ⟨p, rfl, rfl, fun id => rfl⟩
  | cons e rest ih =>
    have hsome : (p.servers.get e.server.id).isSome = true :=
      hreg e (List.mem_cons_self e rest)
    obtain ⟨value, hval⟩ := Option.isSome_iff_exists.mp hsome
    have hvid : value.id = e.server.id :=
      hwf (e.server.id, value) (JsMap.mem_of_get_eq_some hval)
    obtain ⟨q, hstep, hqservers, hqstatus, hqchannels⟩ :=
      HandleVariant.updateServer_spec p e value hval
    have hwf2 : ∀ r ∈ q.servers.entries, (r.2).id = r.1 := by
      rw [hqservers]; exact hwf
    have hreg2 : ∀ ev ∈ rest, (q.servers.get ev.server.id).isSome = true := by
      intro ev hev
      rw [hqservers]
      exact hreg ev (List.mem_cons_of_mem e hev)
    obtain ⟨p', hrun, hpservers, hpstatus⟩ := ih q hwf2 hreg2
    refine ⟨p', ?_, ?_, ?_⟩
    · show (match HandleVariant.updateServer p e with
        | none => none
        | some (p', _) => HandleVariant.applyUpdates p' rest) = some p'
      rw [hstep]
      exact hrun
    · rw [hpservers, hqservers]
    · intro id
      rw [hpstatus id, List.foldl_cons]
      congr 1
      rw [hqstatus, hvid, JsMap.get_set]
      by_cases h : e.server.id = id
      · simp [h]
      · have h2 : ¬ id = e.server.id := by
          intro hc; exact h hc.symm
        simp [h, h2]

/-- C1: the claim states that `updateServer` of the handle-tracking variant,
invoked with an event whose server identifier has no entry in the handle
registry, fails silently as a no-op that never throws.  The source instead
reads `this.servers.get(event.server.id)` (which yields `undefined` for an
unregistered identifier) and immediately dereferences `.id` on it, throwing a
TypeError; the theorem evaluates the embedding at a concrete unregistered
event and observes the thrown exception (`none`), refuting the silent no-op
behaviour. -/
theorem c1_updateServer_unknown_handle_throws :
    HandleVariant.updateServer emptyHandleProvider s1Started = none := rfl

/-- C2: for every sequence of `updateServer` events, the stored ServerState
for identifier `id` equals exactly the last event in the sequence whose
server identifier is `id` (full replacement, deployable list included),
regardless of interleaved updates for other identifiers.  This holds
unconditionally for the state-only variant and, for the handle-tracking
variant, under a well-formed registry in which every event identifier is
registered (otherwise `updateServer` throws, see the C1 theorem). -/
theorem c2_updateServer_last_write_wins
    (pB : StateVariant.Provider) (pA : HandleVariant.Provider)
    (events : List Protocol.ServerState) (id : String)
    (e : Protocol.ServerState)
    (hwf : ∀ q ∈ pA.servers.entries, (q.2).id = q.1)
    (hreg : ∀ ev ∈ events, (pA.servers.get ev.server.id).isSome = true)
    (hlast : lastEventFor id events = some e) :
    (StateVariant.applyUpdates pB events).serverStatus.get id = some e ∧
    ∃ pA', HandleVariant.applyUpdates pA events = some pA' ∧
      pA'.serverStatus.get id = some e := by
  constructor
  · rw [stateVariant_applyUpdates_get, lastEventFor_or, hlast]
    rfl
  · obtain ⟨p', hrun, hservers, hstatus⟩ :=
      handleVariant_applyUpdates_spec events pA hwf hreg
    refine ⟨p', hrun, ?_⟩
    rw [hstatus id, lastEventFor_or, hlast]
    rfl

/-- C2 witness: a concrete two-event run for s1; the second event wins in
both variants. -/
theorem c2_last_write_wins_witness :
    (StateVariant.applyUpdates emptyStateProvider
        [s1Starting, s1Started]).serverStatus.get "s1" = some s1Started ∧
    ∃ pA', HandleVariant.applyUpdates s1HandleProvider
        [s1Starting, s1Started] = some pA' ∧
      pA'.serverStatus.get "s1" = some s1Started :=
  c2_updateServer_last_write_wins emptyStateProvider s1HandleProvider
    [s1Starting, s1Started] "s1" s1Started (by decide) (by decide) (by decide)

/-- C3 counterexample: the claim states that when the bean-discovery stage
returns no beans, the pipeline produces no result silently.  An empty beans
array is JavaScript-truthy, so the source takes the `Promise.reject` branch:
with discovery returning the empty list, the pipeline rejects with the
detection error instead of resolving silently. -/
theorem c3_empty_beans_reject_counterexample :
    addLocation (some ["loc"]) (fun _ => []) none
        (fun _ _ => ⟨0, "ok"⟩) =
      Except.error "Cannot detect server in selected location!" ∧
    addLocation (some ["loc"]) (fun _ => []) none
        (fun _ _ => ⟨0, "ok"⟩) ≠
      Except.ok none := by
  refine ⟨rfl, ?_⟩
  intro hc
  rw [show addLocation (some ["loc"]) (fun _ => []) none
      (fun _ _ => ⟨0, "ok"⟩) =
      Except.error "Cannot detect server in selected location!" from rfl] at hc
  exact Except.noConfusion hc

/-- C3 (amended): in `addLocation`, whenever a beans value was returned at
all, a missing best candidate (empty list) or a best candidate whose
category is absent or equals UNKNOWN rejects with the error "Cannot detect
server in selected location!"; the silent no-result path occurs when
discovery was never invoked because folder selection was cancelled, in which
case the control-service creation call is never made (the result is
independent of `createServer`). -/
theorem c3_addLocation_detection_error
    (find : String → List Protocol.ServerBean) (input : Option String)
    (cs : Protocol.ServerBean → String → Protocol.Status)
    (f : String) (b : Protocol.ServerBean) (rest : List Protocol.ServerBean)
    (hbad : b.typeCategory = "" ∨ b.typeCategory = "UNKNOWN") :
    (find f = b :: rest →
      addLocation (some [f]) find input cs =
        Except.error "Cannot detect server in selected location!") ∧
    (find f = [] →
      addLocation (some [f]) find input cs =
        Except.error "Cannot detect server in selected location!") ∧
    addLocation none find input cs = Except.ok none := by
  refine ⟨?_, ?_, rfl⟩
  · intro hf
    have hnc : ¬ (b.typeCategory ≠ "" ∧ b.typeCategory ≠ "UNKNOWN") := by
      rcases hbad with h | h <;> simp [h]
    simp [addLocation, hf, hnc]
  · intro hf
    simp [addLocation, hf]

/-- C3 witness: concrete runs through the error branch (category UNKNOWN),
the empty-list error branch, and the silent cancellation branch. -/
theorem c3_addLocation_witness :
    (addLocation (some ["loc"]) (fun _ => [⟨"loc", "UNKNOWN"⟩]) (some "n")
        (fun _ _ => ⟨0, "ok"⟩) =
      Except.error "Cannot detect server in selected location!") ∧
    (addLocation (some ["loc2"]) (fun _ => []) (some "n")
        (fun _ _ => ⟨0, "ok"⟩) =
      Except.error "Cannot detect server in selected location!") ∧
    addLocation none (fun _ => []) (some "n") (fun _ _ => ⟨0, "ok"⟩) =
      Except.ok none := by
  refine ⟨?_, ?_, ?_⟩
  · exact (c3_addLocation_detection_error (fun _ => [⟨"loc", "UNKNOWN"⟩])
      (some "n") (fun _ _ => ⟨0, "ok"⟩) "loc" ⟨"loc", "UNKNOWN"⟩ []
      (Or.inr rfl)).1 rfl
  · exact (c3_addLocation_detection_error (fun _ => [])
      (some "n") (fun _ _ => ⟨0, "ok"⟩) "loc2" ⟨"x", ""⟩ []
      (Or.inl rfl)).2.1 rfl
  · exact (c3_addLocation_detection_error (fun _ => [])
      (some "n") (fun _ _ => ⟨0, "ok"⟩) "loc" ⟨"x", ""⟩ []
      (Or.inl rfl)).2.2

/-- C4: for a server node whose handle is id s1 with visible type name
Tomcat, the label derivation returns exactly "s1:Tomcat(Started)" when the
current registry entry for s1 carries run-state code 2, and exactly
"s1:Tomcat(Unknown)" when no entry exists (default run-state code 0).  The
handle-tracking variant renders the handle node, the state-only variant
renders the server-state node through its `server` field; both consult the
current `serverStatus` entry, not the node. -/
theorem c4_getTreeItem_label
    (pA : HandleVariant.Provider) (pB : StateVariant.Provider)
    (tid : String) (st : Protocol.ServerState) (nodeState : Nat)
    (ds : List Protocol.DeployableState) :
    (pA.serverStatus.get "s1" = some st → st.state = 2 →
      Option.map TreeItem.label (HandleVariant.getTreeItem pA
          (HandleVariant.Node.handle ⟨"s1", ⟨tid, "Tomcat"⟩⟩)) =
        some "s1:Tomcat(Started)") ∧
    (pA.serverStatus.get "s1" = none →
      Option.map TreeItem.label (HandleVariant.getTreeItem pA
          (HandleVariant.Node.handle ⟨"s1", ⟨tid, "Tomcat"⟩⟩)) =
        some "s1:Tomcat(Unknown)") ∧
    (pB.serverStatus.get "s1" = some st → st.state = 2 →
      Option.map TreeItem.label (StateVariant.getTreeItem pB
          (StateVariant.Node.serverState
            ⟨⟨"s1", ⟨tid, "Tomcat"⟩⟩, nodeState, ds⟩)) =
        some "s1:Tomcat(Started)") ∧
    (pB.serverStatus.get "s1" = none →
      Option.map TreeItem.label (StateVariant.getTreeItem pB
          (StateVariant.Node.serverState
            ⟨⟨"s1", ⟨tid, "Tomcat"⟩⟩, nodeState, ds⟩)) =
        some "s1:Tomcat(Unknown)") := by
  refine ⟨?_, ?_, ?_, ?_⟩
  · intro hst h2
    simp only [HandleVariant.getTreeItem, hst, h2]
    rfl
  · intro hst
    simp only [HandleVariant.getTreeItem, hst]
    rfl
  · intro hst h2
    simp only [StateVariant.getTreeItem, hst, h2]
    rfl
  · intro hst
    simp only [StateVariant.getTreeItem, hst]
    rfl

/-- C4 witness: concrete providers with a Started entry for s1 and with no
entry for s1. -/
theorem c4_getTreeItem_label_witness :
    (Option.map TreeItem.label (HandleVariant.getTreeItem
        ⟨JsMap.empty.set "s1" s1Handle, JsMap.empty.set "s1" s1Started,
         JsMap.empty⟩
        (HandleVariant.Node.handle ⟨"s1", ⟨"tc", "Tomcat"⟩⟩)) =
      some "s1:Tomcat(Started)") ∧
    (Option.map TreeItem.label (HandleVariant.getTreeItem emptyHandleProvider
        (HandleVariant.Node.handle ⟨"s1", ⟨"tc", "Tomcat"⟩⟩)) =
      some "s1:Tomcat(Unknown)") ∧
    (Option.map TreeItem.label (StateVariant.getTreeItem
        ⟨JsMap.empty.set "s1" s1Started, JsMap.empty⟩
        (StateVariant.Node.serverState ⟨⟨"s1", ⟨"tc", "Tomcat"⟩⟩, 2, []⟩)) =
      some "s1:Tomcat(Started)") ∧
    (Option.map TreeItem.label (StateVariant.getTreeItem emptyStateProvider
        (StateVariant.Node.serverState ⟨⟨"s1", ⟨"tc", "Tomcat"⟩⟩, 0, []⟩)) =
      some "s1:Tomcat(Unknown)") := by
  refine ⟨?_, ?_, ?_, ?_⟩
  · exact (c4_getTreeItem_label
      ⟨JsMap.empty.set "s1" s1Handle, JsMap.empty.set "s1" s1Started,
       JsMap.empty⟩ emptyStateProvider "tc" s1Started 2 []).1 rfl rfl
  · exact (c4_getTreeItem_label emptyHandleProvider emptyStateProvider
      "tc" s1Started 2 []).2.1 rfl
  · exact (c4_getTreeItem_label emptyHandleProvider
      ⟨JsMap.empty.set "s1" s1Started, JsMap.empty⟩
      "tc" s1Started 2 []).2.2.1 rfl rfl
  · exact (c4_getTreeItem_label emptyHandleProvider emptyStateProvider
      "tc" s1Started 0 []).2.2.2 rfl

/-- C5 counterexample: the claim states that `getChildren` on a
deployable-level node returns an empty sequence.  In the source the
deployable node matches no branch and the function returns `undefined`
(modelled `none`), not an empty array: at a concrete deployable node the
result is `none` and differs from `some []`. -/
theorem c5_getChildren_deployable_counterexample :
    StateVariant.getChildren emptyStateProvider
        (some (StateVariant.Node.deployable ⟨⟨"app", "p"⟩, 2, 3⟩)) = none ∧
    StateVariant.getChildren emptyStateProvider
        (some (StateVariant.Node.deployable ⟨⟨"app", "p"⟩, 2, 3⟩)) ≠
      some [] := by
  refine ⟨rfl, ?_⟩
  intro hc
  rw [show StateVariant.getChildren emptyStateProvider
      (some (StateVariant.Node.deployable ⟨⟨"app", "p"⟩, 2, 3⟩)) =
      (none : Option (List StateVariant.Node)) from rfl] at hc
  exact Option.noConfusion hc

/-- C5 (amended): for every server-level node whose ServerState holds two
DeployableState children, `getChildren` returns a sequence of length 2
preserving the original order; for every deployable-level node it returns no
children collection at all (`undefined`, modelled `none`), which the host
treats as a leaf, rather than an empty sequence. -/
theorem c5_getChildren_shape (p : StateVariant.Provider)
    (s : Protocol.ServerState) (d1 d2 : Protocol.DeployableState)
    (d : Protocol.DeployableState)
    (hds : s.deployableStates = [d1, d2]) :
    StateVariant.getChildren p (some (StateVariant.Node.serverState s)) =
      some [StateVariant.Node.deployable d1,
            StateVariant.Node.deployable d2] ∧
    StateVariant.getChildren p (some (StateVariant.Node.deployable d)) =
      none := by
  constructor
  · simp [StateVariant.getChildren, hds]
  · rfl

/-- C5 witness: a concrete server state with two deployables. -/
theorem c5_getChildren_shape_witness :
    StateVariant.getChildren emptyStateProvider
        (some (StateVariant.Node.serverState
          ⟨s1Handle, 2, [⟨⟨"a", "pa"⟩, 2, 1⟩, ⟨⟨"b", "pb"⟩, 4, 3⟩]⟩)) =
      some [StateVariant.Node.deployable ⟨⟨"a", "pa"⟩, 2, 1⟩,
            StateVariant.Node.deployable ⟨⟨"b", "pb"⟩, 4, 3⟩] ∧
    StateVariant.getChildren emptyStateProvider
        (some (StateVariant.Node.deployable ⟨⟨"c", "pc"⟩, 1, 1⟩)) = none :=
  c5_getChildren_shape emptyStateProvider
    ⟨s1Handle, 2, [⟨⟨"a", "pa"⟩, 2, 1⟩, ⟨⟨"b", "pb"⟩, 4, 3⟩]⟩
    ⟨⟨"a", "pa"⟩, 2, 1⟩ ⟨⟨"b", "pb"⟩, 4, 3⟩ ⟨⟨"c", "pc"⟩, 1, 1⟩ rfl

/-- C6: for the output channel table of either variant, appending "a" then
"b" for one identifier yields a single channel with content "ab"; a state
update reporting STARTING clears that content without destroying the channel
(the entry survives with empty content); disposal during `removeServer`
removes the entry, and a later append for the same identifier creates a
fresh channel containing only the new text.  In the handle-tracking variant
the clearing step requires the identifier to be registered, otherwise
`updateServer` throws (see the C1 theorem). -/
theorem c6_output_channel_lifecycle
    (p : StateVariant.Provider) (pA : HandleVariant.Provider)
    (sh : Protocol.ServerHandle) (ev : Protocol.ServerState)
    (hch : p.serverOutputChannels.get sh.id = none)
    (hchA : pA.serverOutputChannels.get sh.id = none)
    (hreg : pA.servers.get sh.id = some sh)
    (hev : ev.server.id = sh.id)
    (hstart : ev.state = ServerState.STARTING) :
    let p2 := StateVariant.addServerOutput
      (StateVariant.addServerOutput p ⟨sh, "a"⟩) ⟨sh, "b"⟩
    let p2A := HandleVariant.addServerOutput
      (HandleVariant.addServerOutput pA ⟨sh, "a"⟩) ⟨sh, "b"⟩
    (p2.serverOutputChannels.get sh.id = some "ab") ∧
    (((StateVariant.updateServer p2 ev).1).serverOutputChannels.get sh.id =
      some "") ∧
    (((StateVariant.removeServer p2 sh).1).serverOutputChannels.get sh.id =
      none) ∧
    ((StateVariant.addServerOutput ((StateVariant.removeServer p2 sh).1)
        ⟨sh, "c"⟩).serverOutputChannels.get sh.id = some "c") ∧
    (p2A.serverOutputChannels.get sh.id = some "ab") ∧
    (∃ q, HandleVariant.updateServer p2A ev = some (q, [some sh]) ∧
      q.serverOutputChannels.get sh.id = some "") ∧
    (((HandleVariant.removeServer p2A sh).1).serverOutputChannels.get sh.id =
      none) ∧
    ((HandleVariant.addServerOutput ((HandleVariant.removeServer p2A sh).1)
        ⟨sh, "c"⟩).serverOutputChannels.get sh.id = some "c") := by
  intro p2 p2A
  have hB1 : (StateVariant.addServerOutput p
      ⟨sh, "a"⟩).serverOutputChannels.get sh.id = some "a" := by
    have h := StateVariant.addServerOutput_content p ⟨sh, "a"⟩
    dsimp only at h
    rw [hch] at h
    exact h.trans rfl
  have hB2 : p2.serverOutputChannels.get sh.id = some "ab" := by
    have h := StateVariant.addServerOutput_content
      (StateVariant.addServerOutput p ⟨sh, "a"⟩) ⟨sh, "b"⟩
    dsimp only at h
    rw [hB1] at h
    exact h.trans rfl
  have hBrem : ((StateVariant.removeServer p2
      sh).1).serverOutputChannels.get sh.id = none := by
    show (p2.serverOutputChannels.delete sh.id).get sh.id = none
    exact JsMap.get_delete_self _ _
  have hA1 : (HandleVariant.addServerOutput pA
      ⟨sh, "a"⟩).serverOutputChannels.get sh.id = some "a" := by
    have h := HandleVariant.addServerOutput_content_handle pA ⟨sh, "a"⟩
    dsimp only at h
    rw [hchA] at h
    exact h.trans rfl
  have hA2 : p2A.serverOutputChannels.get sh.id = some "ab" := by
    have h := HandleVariant.addServerOutput_content_handle
      (HandleVariant.addServerOutput pA ⟨sh, "a"⟩) ⟨sh, "b"⟩
    dsimp only at h
    rw [hA1] at h
    exact h.trans rfl
  have hArem : ((HandleVariant.removeServer p2A
      sh).1).serverOutputChannels.get sh.id = none := by
    show (p2A.serverOutputChannels.delete sh.id).get sh.id = none
    exact JsMap.get_delete_self _ _
  refine ⟨hB2, ?_, hBrem, ?_, hA2, ?_, hArem, ?_⟩
  · rw [StateVariant.updateServer_channels]
    have hcond : ev.state = ServerState.STARTING ∧
        ((p2.serverOutputChannels.get ev.server.id).isSome = true) := by
      refine ⟨hstart, ?_⟩
      rw [hev, hB2]
      rfl
    rw [if_pos hcond, hev]
    exact JsMap.get_set_self _ _ _
  · have h := StateVariant.addServerOutput_content
      ((StateVariant.removeServer p2 sh).1) ⟨sh, "c"⟩
    dsimp only at h
    rw [hBrem] at h
    exact h.trans rfl
  · have hreg2 : p2A.servers.get ev.server.id = some sh := by
      rw [hev]
      exact hreg
    obtain ⟨q, hstep, hqservers, hqstatus, hqchannels⟩ :=
      HandleVariant.updateServer_spec p2A ev sh hreg2
    refine ⟨q, hstep, ?_⟩
    rw [hqchannels]
    have hcond : ev.state = ServerState.STARTING ∧
        ((p2A.serverOutputChannels.get sh.id).isSome = true) := by
      refine ⟨hstart, ?_⟩
      rw [hA2]
      rfl
    rw [if_pos hcond]
    exact JsMap.get_set_self _ _ _
  · have h := HandleVariant.addServerOutput_content_handle
      ((HandleVariant.removeServer p2A sh).1) ⟨sh, "c"⟩
    dsimp only at h
    rw [hArem] at h
    exact h.trans rfl

/-- C6 witness: the concrete lifecycle for s1 starting from empty channel
tables, with s1 registered in the handle-tracking provider. -/
theorem c6_output_channel_lifecycle_witness :
    let p2 := StateVariant.addServerOutput
      (StateVariant.addServerOutput emptyStateProvider ⟨s1Handle, "a"⟩)
      ⟨s1Handle, "b"⟩
    let p2A := HandleVariant.addServerOutput
      (HandleVariant.addServerOutput s1HandleProvider ⟨s1Handle, "a"⟩)
      ⟨s1Handle, "b"⟩
    (p2.serverOutputChannels.get s1Handle.id = some "ab") ∧
    (((StateVariant.updateServer p2
        s1Starting).1).serverOutputChannels.get s1Handle.id = some "") ∧
    (((StateVariant.removeServer p2
        s1Handle).1).serverOutputChannels.get s1Handle.id = none) ∧
    ((StateVariant.addServerOutput
        ((StateVariant.removeServer p2 s1Handle).1)
        ⟨s1Handle, "c"⟩).serverOutputChannels.get s1Handle.id = some "c") ∧
    (p2A.serverOutputChannels.get s1Handle.id = some "ab") ∧
    (∃ q, HandleVariant.updateServer p2A s1Starting =
        some (q, [some s1Handle]) ∧
      q.serverOutputChannels.get s1Handle.id = some "") ∧
    (((HandleVariant.removeServer p2A
        s1Handle).1).serverOutputChannels.get s1Handle.id = none) ∧
    ((HandleVariant.addServerOutput
        ((HandleVariant.removeServer p2A s1Handle).1)
        ⟨s1Handle, "c"⟩).serverOutputChannels.get s1Handle.id = some "c") :=
  c6_output_channel_lifecycle emptyStateProvider s1HandleProvider s1Handle
    s1Starting rfl rfl rfl rfl rfl

/-- C7: every mutating registry operation fires exactly one change
notification per invocation: `updateServer` fires it scoped to the affected
entity (the event in the state-only variant, the registered handle in the
handle-tracking variant, whenever the call completes rather than throwing),
while `insertServer` and `removeServer` fire it with no argument, meaning
whole-tree invalidation. -/
theorem c7_one_notification_per_mutation :
    (∀ (p : StateVariant.Provider) (h : Protocol.ServerHandle),
        (StateVariant.insertServer p h).2 = [none]) ∧
    (∀ (p : StateVariant.Provider) (e : Protocol.ServerState),
        (StateVariant.updateServer p e).2 = [some e]) ∧
    (∀ (p : StateVariant.Provider) (h : Protocol.ServerHandle),
        (StateVariant.removeServer p h).2 = [none]) ∧
    (∀ (p : HandleVariant.Provider) (h : Protocol.ServerHandle),
        (HandleVariant.insertServer p h).2 = [none]) ∧
    (∀ (p : HandleVariant.Provider) (e : Protocol.ServerState)
        (q : HandleVariant.Provider) (ns : List HandleVariant.Notification),
        HandleVariant.updateServer p e = some (q, ns) →
        ∃ value, p.servers.get e.server.id = some value ∧
          ns = [some value]) ∧
    (∀ (p : HandleVariant.Provider) (h : Protocol.ServerHandle),
        (HandleVariant.removeServer p h).2 = [none]) := by
  refine ⟨fun p h => rfl, fun p e => rfl, fun p h => rfl, fun p h => rfl,
    ?_, fun p h => rfl⟩
  intro p e q ns hupd
  cases hval : p.servers.get e.server.id with
  | none =>
    rw [HandleVariant.updateServer, hval] at hupd
    exact Option.noConfusion hupd
  | some value =>
    obtain ⟨q2, hstep, _, _, _⟩ :=
      HandleVariant.updateServer_spec p e value hval
    rw [hstep] at hupd
    have hpair := Option.some.inj hupd
    have h2 : [some value] = ns := congrArg Prod.snd hpair
    exact ⟨value, rfl, h2.symm⟩

/-- C7 witness: concrete invocations of all six operations. -/
theorem c7_one_notification_witness :
    (StateVariant.insertServer emptyStateProvider s1Handle).2 = [none] ∧
    (StateVariant.updateServer emptyStateProvider s1Started).2 =
      [some s1Started] ∧
    (StateVariant.removeServer emptyStateProvider s1Handle).2 = [none] ∧
    (HandleVariant.insertServer emptyHandleProvider s1Handle).2 = [none] ∧
    (∃ value, s1HandleProvider.servers.get s1Started.server.id =
        some value ∧
      [some s1Handle] = [some value]) ∧
    (HandleVariant.removeServer emptyHandleProvider s1Handle).2 = [none] := by
  refine ⟨c7_one_notification_per_mutation.1 emptyStateProvider s1Handle,
    c7_one_notification_per_mutation.2.1 emptyStateProvider s1Started,
    c7_one_notification_per_mutation.2.2.1 emptyStateProvider s1Handle,
    c7_one_notification_per_mutation.2.2.2.1 emptyHandleProvider s1Handle,
    ?_, c7_one_notification_per_mutation.2.2.2.2.2 emptyHandleProvider
      s1Handle⟩
  exact c7_one_notification_per_mutation.2.2.2.2.1 s1HandleProvider
    s1Started _ [some s1Handle] rfl

/-- C8 counterexample: the claim states that the deployable tree item label
combines the reference/name of the deployable with its raw publish-state
code.  In the source the label is the constant text "I am a deployment: "
followed only by the run-state code field `state`: two deployables that
differ in reference and in publish-state code but agree on `state` render
identically, so the label contains neither the reference/name nor the
publish-state code. -/
theorem c8_deployable_label_counterexample :
    StateVariant.getTreeItem emptyStateProvider
        (StateVariant.Node.deployable ⟨⟨"app", "p1"⟩, 2, 3⟩) =
      StateVariant.getTreeItem emptyStateProvider
        (StateVariant.Node.deployable ⟨⟨"other", "p2"⟩, 2, 6⟩) ∧
    (⟨⟨"app", "p1"⟩, 2, 3⟩ : Protocol.DeployableState).reference ≠
      (⟨⟨"other", "p2"⟩, 2, 6⟩ : Protocol.DeployableState).reference ∧
    (⟨⟨"app", "p1"⟩, 2, 3⟩ : Protocol.DeployableState).publishState ≠
      (⟨⟨"other", "p2"⟩, 2, 6⟩ : Protocol.DeployableState).publishState := by
  exact ⟨rfl, by decide, by decide⟩

/-- C8 (amended): for every deployable-level node, the rendered tree item of
the state-only variant carries the label "I am a deployment: " followed by
the raw run-state code field of the deployable (reference and publish-state
code are not part of the label), and a context tag equal to the run-state
enum table entry at the index given by the deployable state code
(cross-table indexing between a deployable code and the server run-state
table). -/
theorem c8_deployable_tree_item (p : StateVariant.Provider)
    (d : Protocol.DeployableState) :
    StateVariant.getTreeItem p (StateVariant.Node.deployable d) =
      some ⟨"I am a deployment: " ++ toString d.state,
            runStateEnum.get d.state⟩ := rfl

/-- C9: the state-only `insertServer` leaves the whole engine state
unchanged (serverStatus, output channels and, being global constants, the
enum tables), fires exactly one whole-tree notification, and consequently a
newly added server does not appear among the roots, which are sourced
exclusively from `serverStatus`. -/
theorem c9_insertServer_is_pure_refresh
    (p : StateVariant.Provider) (h : Protocol.ServerHandle) :
    StateVariant.insertServer p h = (p, [none]) ∧
    StateVariant.getChildren (StateVariant.insertServer p h).1 none =
      some (p.serverStatus.values.map StateVariant.Node.serverState) :=
  ⟨rfl, rfl⟩

/-- C10: in the handle-tracking variant, `getTreeItem` returns no tree item
for every node carrying a `deployableStates` field (every ServerState node
hits the empty TODO branch); only nodes of ServerHandle shape with a truthy
(non-empty) identifier produce a rendered item. -/
theorem c10_getTreeItem_only_handles :
    (∀ (p : HandleVariant.Provider) (s : Protocol.ServerState),
        HandleVariant.getTreeItem p (HandleVariant.Node.serverState s) =
          none) ∧
    (∀ (p : HandleVariant.Provider) (n : HandleVariant.Node) (t : TreeItem),
        HandleVariant.getTreeItem p n = some t →
        ∃ h, n = HandleVariant.Node.handle h ∧ h.id ≠ "") := by
  refine ⟨fun p s => rfl, ?_⟩
  intro p n t ht
  cases n with
  | serverState s => exact Option.noConfusion ht
  | deployable d => exact Option.noConfusion ht
  | handle h =>
    by_cases hid : h.id = ""
    · rw [HandleVariant.getTreeItem] at ht
      rw [if_neg (by simp [hid])] at ht
      exact Option.noConfusion ht
    · exact ⟨h, rfl, hid⟩

/-- C10 witness: the s1 handle node renders in the empty provider. -/
theorem c10_getTreeItem_only_handles_witness :
    ∃ h, HandleVariant.Node.handle s1Handle =
        HandleVariant.Node.handle h ∧ h.id ≠ "" :=
  c10_getTreeItem_only_handles.2 emptyHandleProvider
    (HandleVariant.Node.handle s1Handle)
    ⟨"s1:Tomcat(Unknown)", some "Unknown"⟩ rfl
